import Mathlib

/-!
Shallow embedding of the wishingwell backend (FastAPI + SQLAlchemy) core:
the batch topic-assignment pipeline (`services/scheduler.py`), the manual
training trigger (`routers/admin.py`), wish submission with moderation
(`routers/wishes.py`, `services/content_moderation.py`) and soft delete
(`routers/wishes.py`).

The database session is modelled as an explicit `DB` value holding the
committed rows of each table.  SQLAlchemy's pending/commit/rollback
behaviour is modelled by accumulating uncommitted writes in a `Pending`
record that is merged into the `DB` only at the commit points the source
actually has; a rollback simply discards the `Pending` record.  The two
external ML capabilities (BERTopic clustering and the OpenAI labeler) are
parameters: an oracle `List String → ClusterResult` and a labeling
function.  An optional `failAt` index injects an exception at the start of
the processing of the given cluster, modelling any error raised inside the
per-cluster loop of `process_unassigned_wishes`.
-/

namespace WishingWell

/-- Status values of `ModelUpdate.status` (`'running' | 'completed' | 'failed'`). -/
inductive RunStatus where
  | running
  | completed
  | failed
deriving DecidableEq

/-- The configuration fields the pipeline snapshots into each run record
(`config.py`: EMBEDDING_MODEL, UMAP_N_COMPONENTS, HDBSCAN_MIN_CLUSTER_SIZE). -/
structure Config where
  embeddingModel : String
  umapComponents : Nat
  minClusterSize : Nat
deriving DecidableEq

/-- A row of the `wishes` table (`models/wish.py`).  UUIDs are modelled as `Nat`. -/
structure Wish where
  id : Nat
  content : String
  topic_id : Option Nat
  is_deleted : Bool
deriving DecidableEq

/-- A row of the `topics` table, with exactly the columns the scheduler
writes when it constructs a `Topic` (`services/scheduler.py`). -/
structure TopicRow where
  id : Nat
  name : String
  description : String
  wish_count : Nat
  embedding_model : String
  topic_model_id : Nat
deriving DecidableEq

/-- A row of the `topic_wishes` junction table (`models/topic_wish.py`). -/
structure TopicWishRow where
  topic_id : Nat
  wish_id : Nat
  probability : Rat
  is_primary : Bool
deriving DecidableEq

/-- A row of the `model_updates` table (`models/model_update.py`). -/
structure ModelUpdateRow where
  id : Nat
  version : Nat
  status : RunStatus
  wishes_count : Nat
  topics_created : Nat
  completed_at : Option Nat
  configuration : Config
deriving DecidableEq

/-- A row of the `rejected_wishes` table (`models/rejected_wish.py`). -/
structure RejectedWishRow where
  content : String
  rejection_reason : String
  moderation_model : String
deriving DecidableEq

/-- The committed state of the store: each table's rows plus the generators
for the autoincrement / fresh primary keys. -/
structure DB where
  wishes : List Wish
  topics : List TopicRow
  topicWishes : List TopicWishRow
  modelUpdates : List ModelUpdateRow
  rejectedWishes : List RejectedWishRow
  nextWishId : Nat
  nextTopicId : Nat
  nextUpdateId : Nat
deriving DecidableEq

/-- Result of the clustering capability (`services/topic_modeling.py::train_model`):
one label per document, -1 meaning outlier; a probability row per document
indexed by cluster label; and the trained model's per-cluster top words
(`get_topic_words`). -/
structure ClusterResult where
  labels : List Int
  probs : List (Int → Rat)
  topWords : Int → List String

/-- Observable events of one pipeline execution, in order: the clustering
call, the commit of the `running` run record, each per-cluster label
generation, the bulk commit of topics/assignments, and each committed
status change of the run record. -/
inductive Ev where
  | clusterCall (docs : List String)
  | runRecordCommitted
  | labelCall (t : Int)
  | workCommitted
  | statusCommitted (s : RunStatus)
deriving DecidableEq

/-- The wishes the pipeline and the admin endpoint both select:
`Wish.topic_id IS NULL AND Wish.is_deleted == False`. -/
def eligibleWishes (db : DB) : List Wish :=
  db.wishes.filter (fun w => w.topic_id.isNone && !w.is_deleted)

/-- Translation of `_get_next_version`: one more than the largest existing
version, or 1 when there are no runs. -/
def get_next_version (db : DB) : Nat :=
  (db.modelUpdates.map (·.version)).foldr max 0 + 1

/-- Translation of `set([t for t in topics if t != -1])`: the distinct
non-outlier labels (in first-occurrence order; the Python set's iteration
order is unspecified and nothing downstream depends on it). -/
def uniqueLabels : List Int → List Int
  | [] => []
  | t :: rest =>
    if t = -1 then uniqueLabels rest
    else t :: (uniqueLabels rest).filter (fun x => !(x == t))

/-- Translation of `[i for i, t in enumerate(topics) if t == topic_id]`. -/
def clusterIndices (labels : List Int) (t : Int) : List Nat :=
  (List.range labels.length).filter (fun i => labels.getD i 0 == t)

/-- Uncommitted writes of one run: topics and assignments added to the
session, the pending `wish.topic_id` updates, and the id counter advanced
by each `db.flush()`. -/
structure Pending where
  topics : List TopicRow
  assigns : List TopicWishRow
  wishUpd : List (Nat × Nat)
  nextTopicId : Nat
deriving DecidableEq

/-- The prepared data of a run after clustering and the run-record commit. -/
structure RunPrep where
  docs : List String
  wish_ids : List Nat
  labels : List Int
  probs : List (Int → Rat)
  topWords : Int → List String
  uniq : List Int
  runId : Nat

/-- First half of `process_unassigned_wishes`, up to and including the
commit of the run record: select eligible wishes, decline when fewer than
`HDBSCAN_MIN_CLUSTER_SIZE`, call `train_model` (the clustering), compute
the distinct non-outlier labels, and insert + commit the `ModelUpdate` row
with status `running` and `topics_created` already set to the number of
discovered clusters.  Returns the committed state at that point. -/
def insertRunRecord (cfg : Config) (oracle : List String → ClusterResult) (db : DB) :
    Option (DB × RunPrep × List Ev) :=
  let elig := eligibleWishes db
  if elig.length < cfg.minClusterSize then none
  else
    let docs := elig.map (·.content)
    let ids := elig.map (·.id)
    let cr := oracle docs
    let uniq := uniqueLabels cr.labels
    let mu : ModelUpdateRow :=
      { id := db.nextUpdateId
        version := get_next_version db
        status := .running
        wishes_count := elig.length
        topics_created := uniq.length
        completed_at := none
        configuration := cfg }
    let db1 : DB :=
      { db with
        modelUpdates := db.modelUpdates ++ [mu]
        nextUpdateId := db.nextUpdateId + 1 }
    some (db1, ⟨docs, ids, cr.labels, cr.probs, cr.topWords, uniq, mu.id⟩,
      [.clusterCall docs, .runRecordCommitted])

/-- The assignment rows the loop body adds for one cluster: for every index
of the cluster it looks the wish up by id in the committed store and, when
found, records the `TopicWish` row with the probability read from the
probability matrix (`probabilities[idx][topic_id]`). -/
def clusterAssigns (db1 : DB) (prep : RunPrep) (t : Int) (topicId : Nat) :
    List TopicWishRow :=
  (clusterIndices prep.labels t).filterMap (fun idx =>
    let wid := prep.wish_ids.getD idx 0
    match db1.wishes.find? (fun w => w.id == wid) with
    | none => none
    | some _ => some ⟨topicId, wid, (prep.probs.getD idx (fun _ => 0)) t, true⟩)

/-- The pending `wish.topic_id = topic.id` updates of one cluster, one per
wish the loop body finds. -/
def clusterWishUpds (db1 : DB) (prep : RunPrep) (t : Int) (topicId : Nat) :
    List (Nat × Nat) :=
  (clusterIndices prep.labels t).filterMap (fun idx =>
    let wid := prep.wish_ids.getD idx 0
    match db1.wishes.find? (fun w => w.id == wid) with
    | none => none
    | some _ => some (wid, topicId))

/-- One iteration of the per-cluster loop: derive top words and up to five
sample documents, call the label generator, create the `Topic` row
(`wish_count` = size of the cluster, referencing the current run), flush to
obtain its id, and stage the per-wish updates and assignment rows. -/
def processCluster (cfg : Config) (labelFn : List String → List String → String × String)
    (db1 : DB) (prep : RunPrep) (t : Int) (pend : Pending) : Pending :=
  let tIdx := clusterIndices prep.labels t
  let sampleDocs := (tIdx.take 5).map (fun i => prep.docs.getD i "")
  let lbl := labelFn (prep.topWords t) sampleDocs
  let topic : TopicRow :=
    { id := pend.nextTopicId
      name := lbl.1
      description := lbl.2
      wish_count := tIdx.length
      embedding_model := cfg.embeddingModel
      topic_model_id := prep.runId }
  { topics := pend.topics ++ [topic]
    assigns := pend.assigns ++ clusterAssigns db1 prep t topic.id
    wishUpd := pend.wishUpd ++ clusterWishUpds db1 prep t topic.id
    nextTopicId := pend.nextTopicId + 1 }

/-- The per-cluster loop.  `failAt = some k` injects an exception at the
start of the k-th iteration (0-based), modelling any error raised inside
the loop body; the result is then `none` and the staged writes are lost
(they were never committed).  The returned events are the label-generation
calls that did run. -/
def processClusters (cfg : Config) (labelFn : List String → List String → String × String)
    (db1 : DB) (prep : RunPrep) (failAt : Option Nat) :
    Nat → List Int → Pending → List Ev × Option Pending
  | _, [], pend => ([], some pend)
  | k, t :: rest, pend =>
    if failAt = some k then ([], none)
    else
      let pend1 := processCluster cfg labelFn db1 prep t pend
      let r := processClusters cfg labelFn db1 prep failAt (k + 1) rest pend1
      (.labelCall t :: r.1, r.2)

/-- Applying the staged `wish.topic_id` updates at commit time (the later
assignment wins, matching attribute assignment on the session's objects). -/
def applyWishUpd (upd : List (Nat × Nat)) (w : Wish) : Wish :=
  match upd.reverse.find? (fun p => p.1 == w.id) with
  | some p => { w with topic_id := some p.2 }
  | none => w

/-- The `db.commit()` after the loop: all staged topics, assignments and
wish updates of the run become visible at once. -/
def commitPending (db1 : DB) (pend : Pending) : DB :=
  { db1 with
    wishes := db1.wishes.map (applyWishUpd pend.wishUpd)
    topics := db1.topics ++ pend.topics
    topicWishes := db1.topicWishes ++ pend.assigns
    nextTopicId := pend.nextTopicId }

/-- An UPDATE of the run record identified by `rid`, committed alone. -/
def markRun (db : DB) (rid : Nat) (f : ModelUpdateRow → ModelUpdateRow) : DB :=
  { db with
    modelUpdates := db.modelUpdates.map (fun m => if m.id == rid then f m else m) }

/-- Outcome of one pipeline execution, as observable from the logs/return:
declined for insufficient data, settled `failed`, or settled `completed`. -/
inductive RunOutcome where
  | notEnough
  | failed
  | completed
deriving DecidableEq

/-- Translation of `services/scheduler.py::process_unassigned_wishes`:
select eligible wishes; decline when below the threshold; cluster; insert
and commit the `running` run record; run the per-cluster loop; on success
commit all staged writes and then commit status `completed` with
`completed_at = now`; on an exception inside the loop roll the staged
writes back and commit status `failed` alone. -/
def process_unassigned_wishes (cfg : Config) (oracle : List String → ClusterResult)
    (labelFn : List String → List String → String × String)
    (failAt : Option Nat) (now : Nat) (db : DB) : DB × RunOutcome × List Ev :=
  match insertRunRecord cfg oracle db with
  | none => (db, .notEnough, [])
  | some (db1, prep, evs0) =>
    let r := processClusters cfg labelFn db1 prep failAt 0 prep.uniq
      ⟨[], [], [], db1.nextTopicId⟩
    match r.2 with
    | none =>
      (markRun db1 prep.runId (fun m => { m with status := .failed }), .failed,
        evs0 ++ r.1 ++ [.statusCommitted .failed])
    | some pend =>
      let db2 := commitPending db1 pend
      let db3 := markRun db2 prep.runId
        (fun m => { m with status := .completed, completed_at := some now })
      (db3, .completed, evs0 ++ r.1 ++ [.workCommitted, .statusCommitted .completed])

/-- Errors of the manual trigger endpoint: HTTP 409 (run in progress) and
HTTP 400 (too few unassigned wishes). -/
inductive TrigError where
  | conflict
  | insufficient
deriving DecidableEq

/-- Translation of `routers/admin.py::trigger_training` up to the point it
schedules the background task: refuse with 409 when a `running` run exists,
refuse with 400 when too few eligible wishes exist, otherwise insert and
commit a fresh `ModelUpdate` row with status `running` and
`topics_created = 0` and return it (the background task it schedules is
`process_unassigned_wishes`). -/
def trigger_training (cfg : Config) (db : DB) : DB × Except TrigError ModelUpdateRow :=
  if db.modelUpdates.any (fun m => decide (m.status = .running)) then
    (db, .error .conflict)
  else
    let cnt := (eligibleWishes db).length
    if cnt < cfg.minClusterSize then (db, .error .insufficient)
    else
      let mu : ModelUpdateRow :=
        { id := db.nextUpdateId
          version := get_next_version db
          status := .running
          wishes_count := cnt
          topics_created := 0
          completed_at := none
          configuration := cfg }
      ({ db with
          modelUpdates := db.modelUpdates ++ [mu]
          nextUpdateId := db.nextUpdateId + 1 },
        .ok mu)

/-- Possible outcomes of the call to OpenAI's moderation endpoint, as seen
by `moderate_content`: a clean result, a flagged result with its flagged
category names, or a raised exception with its message. -/
inductive ModResult where
  | ok
  | flagged (categories : List String)
  | apiError (msg : String)

/-- Translation of `services/content_moderation.py::moderate_content`:
returns `(is_safe, rejection_reason)`; a flagged result yields the joined
category list, and an exception from the API is treated as unsafe with the
error message as the reason (fail closed). -/
def moderate_content (r : ModResult) : Bool × Option String :=
  match r with
  | .ok => (true, none)
  | .flagged cats =>
    (false, some ("Content flagged for: " ++ String.intercalate ", " cats))
  | .apiError m => (false, some ("Moderation service error: " ++ m))

/-- Translation of `should_reject_wish`, which just delegates. -/
def should_reject_wish (r : ModResult) : Bool × Option String :=
  moderate_content r

/-- Translation of `routers/wishes.py::create_wish`: when moderation says
unsafe, insert and commit a `RejectedWish` row carrying the reason and
answer HTTP 400 with the reason in the detail; otherwise insert and commit
the new `Wish` (unassigned, not deleted) and return it. -/
def create_wish (moderationModel : String) (modRes : ModResult) (content : String)
    (db : DB) : DB × Except String Wish :=
  let m := should_reject_wish modRes
  if !m.1 then
    let rej : RejectedWishRow :=
      { content := content
        rejection_reason := m.2.getD ""
        moderation_model := moderationModel }
    ({ db with rejectedWishes := db.rejectedWishes ++ [rej] },
      .error ("Wish rejected: " ++ m.2.getD ""))
  else
    let w : Wish := { id := db.nextWishId, content := content,
                      topic_id := none, is_deleted := false }
    ({ db with wishes := db.wishes ++ [w], nextWishId := db.nextWishId + 1 }, .ok w)

/-- Translation of `routers/wishes.py::delete_wish`: look the wish up by id
(regardless of its deletion state); 404 when absent (`false`), otherwise
set `is_deleted = True` and commit (`true`). -/
def delete_wish (wid : Nat) (db : DB) : DB × Bool :=
  match db.wishes.find? (fun w => w.id == wid) with
  | none => (db, false)
  | some _ =>
    ({ db with
        wishes := db.wishes.map (fun w =>
          if w.id == wid then { w with is_deleted := true } else w) },
      true)

/-! ### Characterizations of the pipeline's pieces -/

/-- The run record `process_unassigned_wishes` inserts and commits. -/
def runRowOf (cfg : Config) (oracle : List String → ClusterResult) (db : DB) :
    ModelUpdateRow :=
  { id := db.nextUpdateId
    version := get_next_version db
    status := .running
    wishes_count := (eligibleWishes db).length
    topics_created :=
      (uniqueLabels (oracle ((eligibleWishes db).map (·.content))).labels).length
    completed_at := none
    configuration := cfg }

/-- The prepared run data `process_unassigned_wishes` carries into its loop. -/
def runPrepOf (oracle : List String → ClusterResult) (db : DB) : RunPrep :=
  ⟨(eligibleWishes db).map (·.content), (eligibleWishes db).map (·.id),
    (oracle ((eligibleWishes db).map (·.content))).labels,
    (oracle ((eligibleWishes db).map (·.content))).probs,
    (oracle ((eligibleWishes db).map (·.content))).topWords,
    uniqueLabels (oracle ((eligibleWishes db).map (·.content))).labels,
    db.nextUpdateId⟩

/-- The committed store right after the pipeline's run-record commit. -/
def dbAfterInsert (cfg : Config) (oracle : List String → ClusterResult) (db : DB) : DB :=
  { db with
    modelUpdates := db.modelUpdates ++ [runRowOf cfg oracle db]
    nextUpdateId := db.nextUpdateId + 1 }

theorem insertRunRecord_eq (cfg : Config) (oracle : List String → ClusterResult) (db : DB) :
    insertRunRecord cfg oracle db =
      if (eligibleWishes db).length < cfg.minClusterSize then none
      else some
        (dbAfterInsert cfg oracle db, runPrepOf oracle db,
          [.clusterCall ((eligibleWishes db).map (·.content)), .runRecordCommitted]) := rfl

theorem process_eq_of_lt (cfg : Config) (oracle : List String → ClusterResult)
    (labelFn : List String → List String → String × String) (failAt : Option Nat)
    (now : Nat) (db : DB) (h : (eligibleWishes db).length < cfg.minClusterSize) :
    process_unassigned_wishes cfg oracle labelFn failAt now db =
      (db, .notEnough, []) := by
  unfold process_unassigned_wishes
  rw [insertRunRecord_eq, if_pos h]

theorem process_eq_failed (cfg : Config) (oracle : List String → ClusterResult)
    (labelFn : List String → List String → String × String) (failAt : Option Nat)
    (now : Nat) (db : DB)
    (h : ¬ (eligibleWishes db).length < cfg.minClusterSize)
    (hr : (processClusters cfg labelFn (dbAfterInsert cfg oracle db) (runPrepOf oracle db)
        failAt 0 (runPrepOf oracle db).uniq ⟨[], [], [], (dbAfterInsert cfg oracle db).nextTopicId⟩).2 = none) :
    process_unassigned_wishes cfg oracle labelFn failAt now db =
      (markRun (dbAfterInsert cfg oracle db) db.nextUpdateId
          (fun m => { m with status := .failed }),
        .failed,
        [Ev.clusterCall ((eligibleWishes db).map (·.content)), Ev.runRecordCommitted] ++
          (processClusters cfg labelFn (dbAfterInsert cfg oracle db) (runPrepOf oracle db)
            failAt 0 (runPrepOf oracle db).uniq ⟨[], [], [], (dbAfterInsert cfg oracle db).nextTopicId⟩).1 ++
          [Ev.statusCommitted .failed]) := by
  unfold process_unassigned_wishes
  rw [insertRunRecord_eq, if_neg h]
  dsimp only
  rw [hr]
  rfl

theorem process_eq_completed (cfg : Config) (oracle : List String → ClusterResult)
    (labelFn : List String → List String → String × String) (failAt : Option Nat)
    (now : Nat) (db : DB) (pend : Pending)
    (h : ¬ (eligibleWishes db).length < cfg.minClusterSize)
    (hr : (processClusters cfg labelFn (dbAfterInsert cfg oracle db) (runPrepOf oracle db)
        failAt 0 (runPrepOf oracle db).uniq ⟨[], [], [], (dbAfterInsert cfg oracle db).nextTopicId⟩).2 = some pend) :
    process_unassigned_wishes cfg oracle labelFn failAt now db =
      (markRun (commitPending (dbAfterInsert cfg oracle db) pend) db.nextUpdateId
          (fun m => { m with status := .completed, completed_at := some now }),
        .completed,
        [Ev.clusterCall ((eligibleWishes db).map (·.content)), Ev.runRecordCommitted] ++
          (processClusters cfg labelFn (dbAfterInsert cfg oracle db) (runPrepOf oracle db)
            failAt 0 (runPrepOf oracle db).uniq ⟨[], [], [], (dbAfterInsert cfg oracle db).nextTopicId⟩).1 ++
          [Ev.workCommitted, Ev.statusCommitted .completed]) := by
  unfold process_unassigned_wishes
  rw [insertRunRecord_eq, if_neg h]
  dsimp only
  rw [hr]
  rfl

theorem processClusters_cons (cfg : Config)
    (labelFn : List String → List String → String × String) (db1 : DB) (prep : RunPrep)
    (failAt : Option Nat) (k : Nat) (t : Int) (rest : List Int) (pend : Pending) :
    processClusters cfg labelFn db1 prep failAt k (t :: rest) pend =
      if failAt = some k then ([], none)
      else
        ((.labelCall t ::
            (processClusters cfg labelFn db1 prep failAt (k + 1) rest
              (processCluster cfg labelFn db1 prep t pend)).1),
          (processClusters cfg labelFn db1 prep failAt (k + 1) rest
            (processCluster cfg labelFn db1 prep t pend)).2) := rfl

/-- An exception injected at a cluster index the loop actually reaches makes
the loop fail. -/
theorem processClusters_fails (cfg : Config)
    (labelFn : List String → List String → String × String) (db1 : DB) (prep : RunPrep)
    (k : Nat) :
    ∀ (todo : List Int) (j : Nat) (pend : Pending), j ≤ k → k < j + todo.length →
      (processClusters cfg labelFn db1 prep (some k) j todo pend).2 = none := by
  intro todo
  induction todo with
  | nil => intro j pend h1 h2; simp at h2; omega
  | cons t rest ih =>
    intro j pend h1 h2
    rw [processClusters_cons]
    by_cases hj : (some k : Option Nat) = some j
    · rw [if_pos hj]
    · rw [if_neg hj]
      have hjk : j ≠ k := fun h => hj (by rw [h])
      exact ih (j + 1) _ (by omega) (by simp at h2 ⊢; omega)

/-- Every event the loop emits is a label-generation call for one of the
labels it was asked to process. -/
theorem processClusters_evs (cfg : Config)
    (labelFn : List String → List String → String × String) (db1 : DB) (prep : RunPrep)
    (failAt : Option Nat) :
    ∀ (todo : List Int) (j : Nat) (pend : Pending) (e : Ev),
      e ∈ (processClusters cfg labelFn db1 prep failAt j todo pend).1 →
      ∃ t ∈ todo, e = Ev.labelCall t := by
  intro todo
  induction todo with
  | nil => intro j pend e he; simp [processClusters] at he
  | cons t rest ih =>
    intro j pend e he
    rw [processClusters_cons] at he
    by_cases hj : failAt = some j
    · rw [if_pos hj] at he; simp at he
    · rw [if_neg hj] at he
      rcases List.mem_cons.mp he with h | h
      · exact ⟨t, List.mem_cons_self t rest, h⟩
      · obtain ⟨t', ht', he'⟩ := ih (j + 1) _ e h
        exact ⟨t', List.mem_cons_of_mem t ht', he'⟩

theorem mem_clusterWishUpds {db1 : DB} {prep : RunPrep} {t : Int} {tid : Nat}
    {p : Nat × Nat} (h : p ∈ clusterWishUpds db1 prep t tid) :
    ∃ idx ∈ clusterIndices prep.labels t, p = (prep.wish_ids.getD idx 0, tid) := by
  unfold clusterWishUpds at h
  obtain ⟨idx, hidx, hf⟩ := List.mem_filterMap.mp h
  refine ⟨idx, hidx, ?_⟩
  dsimp only at hf
  cases hfind : db1.wishes.find? (fun w => w.id == prep.wish_ids.getD idx 0) with
  | none => rw [hfind] at hf; cases hf
  | some w => rw [hfind] at hf; exact (Option.some.inj hf).symm

theorem mem_clusterAssigns {db1 : DB} {prep : RunPrep} {t : Int} {tid : Nat}
    {a : TopicWishRow} (h : a ∈ clusterAssigns db1 prep t tid) :
    ∃ idx ∈ clusterIndices prep.labels t,
      a = ⟨tid, prep.wish_ids.getD idx 0, (prep.probs.getD idx (fun _ => 0)) t, true⟩ := by
  unfold clusterAssigns at h
  obtain ⟨idx, hidx, hf⟩ := List.mem_filterMap.mp h
  refine ⟨idx, hidx, ?_⟩
  dsimp only at hf
  cases hfind : db1.wishes.find? (fun w => w.id == prep.wish_ids.getD idx 0) with
  | none => rw [hfind] at hf; cases hf
  | some w => rw [hfind] at hf; exact (Option.some.inj hf).symm

/-- The staged wish updates and assignment rows of a loop run that did not
fail all come from the indices of the processed clusters. -/
theorem processClusters_writes (cfg : Config)
    (labelFn : List String → List String → String × String) (db1 : DB) (prep : RunPrep)
    (failAt : Option Nat) :
    ∀ (todo : List Int) (j : Nat) (pend pend' : Pending),
      (processClusters cfg labelFn db1 prep failAt j todo pend).2 = some pend' →
      (∀ p ∈ pend'.wishUpd, p ∈ pend.wishUpd ∨
        ∃ t ∈ todo, ∃ idx ∈ clusterIndices prep.labels t,
          p.1 = prep.wish_ids.getD idx 0) ∧
      (∀ a ∈ pend'.assigns, a ∈ pend.assigns ∨
        ∃ t ∈ todo, ∃ idx ∈ clusterIndices prep.labels t,
          a.wish_id = prep.wish_ids.getD idx 0) := by
  intro todo
  induction todo with
  | nil =>
    intro j pend pend' h
    simp only [processClusters] at h
    cases h
    exact ⟨fun p hp => Or.inl hp, fun a ha => Or.inl ha⟩
  | cons t rest ih =>
    intro j pend pend' h
    rw [processClusters_cons] at h
    by_cases hj : failAt = some j
    · rw [if_pos hj] at h; cases h
    · rw [if_neg hj] at h
      dsimp only at h
      obtain ⟨ihu, iha⟩ := ih (j + 1) _ pend' h
      constructor
      · intro p hp
        rcases ihu p hp with hp1 | ⟨t', ht', hrest⟩
        · simp only [processCluster, List.mem_append] at hp1
          rcases hp1 with hp2 | hp2
          · exact Or.inl hp2
          · obtain ⟨idx, hidx, heq⟩ := mem_clusterWishUpds hp2
            exact Or.inr ⟨t, List.mem_cons_self t rest, idx, hidx, by rw [heq]⟩
        · exact Or.inr ⟨t', List.mem_cons_of_mem t ht', hrest⟩
      · intro a ha
        rcases iha a ha with ha1 | ⟨t', ht', hrest⟩
        · simp only [processCluster, List.mem_append] at ha1
          rcases ha1 with ha2 | ha2
          · exact Or.inl ha2
          · obtain ⟨idx, hidx, heq⟩ := mem_clusterAssigns ha2
            exact Or.inr ⟨t, List.mem_cons_self t rest, idx, hidx, by rw [heq]⟩
        · exact Or.inr ⟨t', List.mem_cons_of_mem t ht', hrest⟩

/-- Updating the freshly appended run record rewrites exactly that row. -/
theorem markRun_append {db : DB} {l : List ModelUpdateRow} {mu : ModelUpdateRow}
    (f : ModelUpdateRow → ModelUpdateRow)
    (hdb : db.modelUpdates = l ++ [mu]) (hfresh : ∀ m ∈ l, m.id ≠ mu.id) :
    (markRun db mu.id f).modelUpdates = l ++ [f mu] := by
  simp only [markRun, hdb, List.map_append, List.map_cons, List.map_nil]
  congr 1
  · have h1 : ∀ m ∈ l, (if (m.id == mu.id) = true then f m else m) = m :=
      fun m hm => by simp [hfresh m hm]
    calc List.map (fun m => if (m.id == mu.id) = true then f m else m) l
        = List.map (fun m => m) l := List.map_congr_left h1
      _ = l := List.map_id' l
  · simp

theorem applyWishUpd_eq_self {u : List (Nat × Nat)} {w : Wish}
    (h : ∀ p ∈ u, p.1 ≠ w.id) : applyWishUpd u w = w := by
  unfold applyWishUpd
  cases hf : u.reverse.find? (fun p => p.1 == w.id) with
  | none => rfl
  | some p =>
    have hp := List.find?_some hf
    have hmem := List.mem_of_find?_eq_some hf
    rw [List.mem_reverse] at hmem
    exact absurd (by simpa using hp) (h p hmem)

theorem mem_eligibleWishes {db : DB} {w : Wish} :
    w ∈ eligibleWishes db ↔ w ∈ db.wishes ∧ w.topic_id = none ∧ w.is_deleted = false := by
  simp [eligibleWishes, List.mem_filter, Option.isNone_iff_eq_none, and_assoc]

theorem eligible_ids_nodup {db : DB} (h : (db.wishes.map (·.id)).Nodup) :
    ((eligibleWishes db).map (·.id)).Nodup :=
  ((List.filter_sublist db.wishes).map (·.id)).nodup h

theorem mem_clusterIndices {labels : List Int} {t : Int} {i : Nat} :
    i ∈ clusterIndices labels t ↔ i < labels.length ∧ labels.getD i 0 = t := by
  simp [clusterIndices, List.mem_filter, List.mem_range]

theorem uniqueLabels_cons (a : Int) (l : List Int) :
    uniqueLabels (a :: l) =
      if a = -1 then uniqueLabels l
      else a :: (uniqueLabels l).filter (fun x => !(x == a)) := rfl

theorem mem_uniqueLabels : ∀ {l : List Int} {t : Int},
    t ∈ uniqueLabels l ↔ t ∈ l ∧ t ≠ -1 := by
  intro l
  induction l with
  | nil => intro t; simp [uniqueLabels]
  | cons a l ih =>
    intro t
    rw [uniqueLabels_cons]
    by_cases ha : a = -1
    · rw [if_pos ha]
      subst ha
      rw [ih]
      constructor
      · rintro ⟨h1, h2⟩; exact ⟨List.mem_cons_of_mem _ h1, h2⟩
      · rintro ⟨h1, h2⟩
        rcases List.mem_cons.mp h1 with rfl | h1
        · exact absurd rfl h2
        · exact ⟨h1, h2⟩
    · rw [if_neg ha]
      constructor
      · intro h
        rcases List.mem_cons.mp h with rfl | h1
        · exact ⟨List.mem_cons_self _ _, ha⟩
        · obtain ⟨h2, _⟩ := List.mem_filter.mp h1
          obtain ⟨h3, h4⟩ := ih.mp h2
          exact ⟨List.mem_cons_of_mem a h3, h4⟩
      · rintro ⟨h1, h2⟩
        rcases List.mem_cons.mp h1 with rfl | h1
        · exact List.mem_cons_self _ _
        · by_cases hta : t = a
          · subst hta; exact List.mem_cons_self _ _
          · exact List.mem_cons_of_mem a
              (List.mem_filter.mpr ⟨ih.mpr ⟨h1, h2⟩, by simp [hta]⟩)

@[simp] theorem runPrepOf_labels (oracle : List String → ClusterResult) (db : DB) :
    (runPrepOf oracle db).labels =
      (oracle ((eligibleWishes db).map (·.content))).labels := rfl

@[simp] theorem runPrepOf_wish_ids (oracle : List String → ClusterResult) (db : DB) :
    (runPrepOf oracle db).wish_ids = (eligibleWishes db).map (·.id) := rfl

@[simp] theorem runPrepOf_uniq (oracle : List String → ClusterResult) (db : DB) :
    (runPrepOf oracle db).uniq =
      uniqueLabels (oracle ((eligibleWishes db).map (·.content))).labels := rfl

theorem getD_map_id {l : List Wish} {idx : Nat} (h : idx < l.length) :
    (l.map (·.id)).getD idx 0 = l[idx].id := by
  have h2 : idx < (l.map (·.id)).length := by simpa using h
  rw [List.getD_eq_getElem?_getD, List.getElem?_eq_getElem h2]
  simp

/-- Under a duplicate-free id column, an eligible wish's id never equals
the id of a wish that already has a topic. -/
theorem eligible_id_ne {db : DB} (hnodup : (db.wishes.map (·.id)).Nodup)
    {w e : Wish} (hw : w ∈ db.wishes) (he : e ∈ eligibleWishes db)
    (hne : w.topic_id ≠ none) : e.id ≠ w.id := by
  intro heq
  have hemem : e ∈ db.wishes := (mem_eligibleWishes.mp he).1
  have : e = w := List.inj_on_of_nodup_map hnodup hemem hw heq
  rw [this] at he
  exact hne (mem_eligibleWishes.mp he).2.1

/-- Every staged wish update and assignment of a successful loop targets
the id of an eligible wish at a document index whose cluster label is not
the outlier sentinel. -/
theorem pendWrites_ids (cfg : Config) (oracle : List String → ClusterResult)
    (labelFn : List String → List String → String × String) (failAt : Option Nat)
    (db : DB) (pend : Pending)
    (hlen : (oracle ((eligibleWishes db).map (·.content))).labels.length =
      (eligibleWishes db).length)
    (hr : (processClusters cfg labelFn (dbAfterInsert cfg oracle db) (runPrepOf oracle db)
        failAt 0 (runPrepOf oracle db).uniq
        ⟨[], [], [], (dbAfterInsert cfg oracle db).nextTopicId⟩).2 = some pend) :
    (∀ p ∈ pend.wishUpd, ∃ idx, ∃ h : idx < (eligibleWishes db).length,
      p.1 = (eligibleWishes db)[idx].id ∧
      (oracle ((eligibleWishes db).map (·.content))).labels.getD idx 0 ≠ -1) ∧
    (∀ a ∈ pend.assigns, ∃ idx, ∃ h : idx < (eligibleWishes db).length,
      a.wish_id = (eligibleWishes db)[idx].id ∧
      (oracle ((eligibleWishes db).map (·.content))).labels.getD idx 0 ≠ -1) := by
  obtain ⟨hu, ha⟩ := processClusters_writes cfg labelFn (dbAfterInsert cfg oracle db)
    (runPrepOf oracle db) failAt (runPrepOf oracle db).uniq 0
    ⟨[], [], [], (dbAfterInsert cfg oracle db).nextTopicId⟩ pend hr
  constructor
  · intro p hp
    rcases hu p hp with h0 | ⟨t, ht, idx, hidx, hpe⟩
    · simp at h0
    · obtain ⟨hlt, heq⟩ := mem_clusterIndices.mp hidx
      rw [runPrepOf_labels] at hlt heq
      have hlt2 : idx < (eligibleWishes db).length := by rw [hlen] at hlt; exact hlt
      have htne : t ≠ -1 :=
        (mem_uniqueLabels.mp (by rw [runPrepOf_uniq] at ht; exact ht)).2
      refine ⟨idx, hlt2, ?_, heq ▸ htne⟩
      rw [hpe, runPrepOf_wish_ids]
      exact getD_map_id hlt2
  · intro a haa
    rcases ha a haa with h0 | ⟨t, ht, idx, hidx, hpe⟩
    · simp at h0
    · obtain ⟨hlt, heq⟩ := mem_clusterIndices.mp hidx
      rw [runPrepOf_labels] at hlt heq
      have hlt2 : idx < (eligibleWishes db).length := by rw [hlen] at hlt; exact hlt
      have htne : t ≠ -1 :=
        (mem_uniqueLabels.mp (by rw [runPrepOf_uniq] at ht; exact ht)).2
      refine ⟨idx, hlt2, ?_, heq ▸ htne⟩
      rw [hpe, runPrepOf_wish_ids]
      exact getD_map_id hlt2

/-- Any clustering call recorded in a pipeline trace was given exactly the
contents of the eligible wishes of the starting store. -/
theorem clusterCall_docs (cfg : Config) (oracle : List String → ClusterResult)
    (labelFn : List String → List String → String × String) (failAt : Option Nat)
    (now : Nat) (db : DB) (d : List String)
    (hd : Ev.clusterCall d ∈
      (process_unassigned_wishes cfg oracle labelFn failAt now db).2.2) :
    d = (eligibleWishes db).map (·.content) := by
  by_cases hmin : (eligibleWishes db).length < cfg.minClusterSize
  · rw [process_eq_of_lt cfg oracle labelFn failAt now db hmin] at hd
    simp at hd
  · cases hr : (processClusters cfg labelFn (dbAfterInsert cfg oracle db)
        (runPrepOf oracle db) failAt 0 (runPrepOf oracle db).uniq
        ⟨[], [], [], (dbAfterInsert cfg oracle db).nextTopicId⟩).2 with
    | none =>
      rw [process_eq_failed cfg oracle labelFn failAt now db hmin hr] at hd
      simp only [List.cons_append, List.nil_append, List.mem_cons, List.mem_append,
        List.mem_singleton, List.not_mem_nil, or_false] at hd
      rcases hd with h | h | h | h
      · exact (Ev.clusterCall.injEq d _).mp h
      · exact Ev.noConfusion h
      · obtain ⟨t, _, he⟩ := processClusters_evs cfg labelFn _ _ failAt _ 0 _ _ h
        exact Ev.noConfusion he
      · exact Ev.noConfusion h
    | some pend =>
      rw [process_eq_completed cfg oracle labelFn failAt now db pend hmin hr] at hd
      simp only [List.cons_append, List.nil_append, List.mem_cons, List.mem_append,
        List.mem_singleton, List.not_mem_nil, or_false] at hd
      rcases hd with h | h | h | h | h
      · exact (Ev.clusterCall.injEq d _).mp h
      · exact Ev.noConfusion h
      · obtain ⟨t, _, he⟩ := processClusters_evs cfg labelFn _ _ failAt _ 0 _ _ h
        exact Ev.noConfusion he
      · exact Ev.noConfusion h
      · exact Ev.noConfusion h

/-! ### Counting primary assignments (for the wish-count invariant) -/

/-- Number of assignment rows with `is_primary = true` referencing the
given topic id. -/
def countPrim (l : List TopicWishRow) (tid : Nat) : Nat :=
  (l.filter (fun a => a.topic_id == tid && a.is_primary)).length

theorem countPrim_append (l1 l2 : List TopicWishRow) (tid : Nat) :
    countPrim (l1 ++ l2) tid = countPrim l1 tid + countPrim l2 tid := by
  simp [countPrim, List.filter_append]

theorem countPrim_eq_zero {l : List TopicWishRow} {tid : Nat}
    (h : ∀ a ∈ l, a.topic_id ≠ tid) : countPrim l tid = 0 := by
  unfold countPrim
  rw [List.filter_eq_nil_iff.mpr (fun a ha => by simp [h a ha])]
  rfl

theorem countPrim_self {l : List TopicWishRow} {tid : Nat}
    (h : ∀ a ∈ l, a.topic_id = tid ∧ a.is_primary = true) :
    countPrim l tid = l.length := by
  unfold countPrim
  rw [List.filter_eq_self.mpr (fun a ha => by simp [(h a ha).1, (h a ha).2])]

/-- The `Topic` row the loop body creates for one cluster. -/
def clusterTopicRow (cfg : Config)
    (labelFn : List String → List String → String × String) (prep : RunPrep)
    (t : Int) (tid : Nat) : TopicRow :=
  { id := tid
    name := (labelFn (prep.topWords t)
      (((clusterIndices prep.labels t).take 5).map (fun i => prep.docs.getD i ""))).1
    description := (labelFn (prep.topWords t)
      (((clusterIndices prep.labels t).take 5).map (fun i => prep.docs.getD i ""))).2
    wish_count := (clusterIndices prep.labels t).length
    embedding_model := cfg.embeddingModel
    topic_model_id := prep.runId }

theorem processCluster_assigns (cfg : Config)
    (labelFn : List String → List String → String × String) (db1 : DB) (prep : RunPrep)
    (t : Int) (pend : Pending) :
    (processCluster cfg labelFn db1 prep t pend).assigns =
      pend.assigns ++ clusterAssigns db1 prep t pend.nextTopicId := rfl

theorem processCluster_topics (cfg : Config)
    (labelFn : List String → List String → String × String) (db1 : DB) (prep : RunPrep)
    (t : Int) (pend : Pending) :
    (processCluster cfg labelFn db1 prep t pend).topics =
      pend.topics ++ [clusterTopicRow cfg labelFn prep t pend.nextTopicId] := rfl

theorem processCluster_nextTopicId (cfg : Config)
    (labelFn : List String → List String → String × String) (db1 : DB) (prep : RunPrep)
    (t : Int) (pend : Pending) :
    (processCluster cfg labelFn db1 prep t pend).nextTopicId = pend.nextTopicId + 1 := rfl

theorem clusterAssigns_fields {db1 : DB} {prep : RunPrep} {t : Int} {tid : Nat}
    {a : TopicWishRow} (h : a ∈ clusterAssigns db1 prep t tid) :
    a.topic_id = tid ∧ a.is_primary = true := by
  obtain ⟨idx, _, hae⟩ := mem_clusterAssigns h
  rw [hae]
  exact ⟨rfl, rfl⟩

theorem filterMap_length_eq {α β : Type _} (f : α → Option β) :
    ∀ l : List α, (∀ a ∈ l, (f a).isSome) → (l.filterMap f).length = l.length := by
  intro l
  induction l with
  | nil => intro _; rfl
  | cons a l ih =>
    intro h
    rw [List.filterMap_cons]
    cases hf : f a with
    | none =>
      have h2 := h a (List.mem_cons_self a l)
      rw [hf] at h2
      exact absurd h2 (by simp)
    | some b =>
      simp only [List.length_cons]
      rw [ih (fun x hx => h x (List.mem_cons_of_mem a hx))]

theorem clusterAssigns_length {db1 : DB} {prep : RunPrep} {t : Int} {tid : Nat}
    (h : ∀ idx ∈ clusterIndices prep.labels t,
      (db1.wishes.find? (fun w => w.id == prep.wish_ids.getD idx 0)).isSome) :
    (clusterAssigns db1 prep t tid).length = (clusterIndices prep.labels t).length := by
  unfold clusterAssigns
  refine filterMap_length_eq _ _ (fun idx hidx => ?_)
  dsimp only
  have h2 := h idx hidx
  cases hfind : db1.wishes.find? (fun w => w.id == prep.wish_ids.getD idx 0) with
  | none => rw [hfind] at h2; exact absurd h2 (by simp)
  | some w => simp only [hfind]; rfl

/-- Full characterization of a loop run with no injected exception: it
returns staged writes in which every created topic's `wish_count` equals
both its cluster's size and the number of primary staged assignments
referencing it, and all staged rows use fresh, strictly increasing topic
ids. -/
theorem processClusters_complete_spec (cfg : Config)
    (labelFn : List String → List String → String × String) (db1 : DB) (prep : RunPrep)
    (hfind : ∀ idx, idx < prep.labels.length →
      (db1.wishes.find? (fun w => w.id == prep.wish_ids.getD idx 0)).isSome) :
    ∀ (todo : List Int) (j : Nat) (pend : Pending),
      (∀ a ∈ pend.assigns, a.topic_id < pend.nextTopicId) →
      (∀ T ∈ pend.topics, T.id < pend.nextTopicId) →
      ∃ pend', (processClusters cfg labelFn db1 prep none j todo pend).2 = some pend' ∧
        pend.nextTopicId ≤ pend'.nextTopicId ∧
        (∃ tl, pend'.assigns = pend.assigns ++ tl ∧
          ∀ a ∈ tl, pend.nextTopicId ≤ a.topic_id ∧ a.topic_id < pend'.nextTopicId) ∧
        (∃ tlT, pend'.topics = pend.topics ++ tlT ∧
          ∀ T ∈ tlT, pend.nextTopicId ≤ T.id ∧ T.id < pend'.nextTopicId ∧
            (∃ t ∈ todo, T.wish_count = (clusterIndices prep.labels t).length) ∧
            countPrim pend'.assigns T.id = T.wish_count) := by
  intro todo
  induction todo with
  | nil =>
    intro j pend hA hT
    refine ⟨pend, rfl, le_refl _, ⟨[], (List.append_nil _).symm, by simp⟩,
      ⟨[], (List.append_nil _).symm, by simp⟩⟩
  | cons t rest ih =>
    intro j pend hA hT
    rw [processClusters_cons, if_neg (by simp)]
    dsimp only
    have hA1 : ∀ a ∈ (processCluster cfg labelFn db1 prep t pend).assigns,
        a.topic_id < (processCluster cfg labelFn db1 prep t pend).nextTopicId := by
      intro a ha
      rw [processCluster_assigns] at ha
      rw [processCluster_nextTopicId]
      rcases List.mem_append.mp ha with h | h
      · exact Nat.lt_succ_of_lt (hA a h)
      · rw [(clusterAssigns_fields h).1]
        exact Nat.lt_succ_self _
    have hT1 : ∀ T ∈ (processCluster cfg labelFn db1 prep t pend).topics,
        T.id < (processCluster cfg labelFn db1 prep t pend).nextTopicId := by
      intro T hTm
      rw [processCluster_topics] at hTm
      rw [processCluster_nextTopicId]
      rcases List.mem_append.mp hTm with h | h
      · exact Nat.lt_succ_of_lt (hT T h)
      · rw [List.mem_singleton] at h
        rw [h]
        exact Nat.lt_succ_self _
    obtain ⟨pend', hr2, hle, ⟨tl1, htl1, htl1b⟩, ⟨tlT1, htlT1, htlT1b⟩⟩ :=
      ih (j + 1) (processCluster cfg labelFn db1 prep t pend) hA1 hT1
    have hnid : (processCluster cfg labelFn db1 prep t pend).nextTopicId =
        pend.nextTopicId + 1 := processCluster_nextTopicId cfg labelFn db1 prep t pend
    have hle2 : pend.nextTopicId + 1 ≤ pend'.nextTopicId := hnid ▸ hle
    have hassigns : pend'.assigns =
        pend.assigns ++ (clusterAssigns db1 prep t pend.nextTopicId ++ tl1) := by
      rw [htl1, processCluster_assigns, List.append_assoc]
    refine ⟨pend', hr2, by omega, ?_, ?_⟩
    · refine ⟨clusterAssigns db1 prep t pend.nextTopicId ++ tl1, hassigns, ?_⟩
      intro a ha
      rcases List.mem_append.mp ha with h | h
      · rw [(clusterAssigns_fields h).1]
        omega
      · have h2 := htl1b a h
        omega
    · refine ⟨clusterTopicRow cfg labelFn prep t pend.nextTopicId :: tlT1, ?_, ?_⟩
      · rw [htlT1, processCluster_topics, List.append_assoc, List.singleton_append]
      · intro T hTm
        rcases List.mem_cons.mp hTm with rfl | hTm1
        · have hid : (clusterTopicRow cfg labelFn prep t pend.nextTopicId).id =
              pend.nextTopicId := rfl
          have hwcnt : (clusterTopicRow cfg labelFn prep t pend.nextTopicId).wish_count =
              (clusterIndices prep.labels t).length := rfl
          have hfind2 : ∀ idx ∈ clusterIndices prep.labels t,
              (db1.wishes.find? (fun w => w.id == prep.wish_ids.getD idx 0)).isSome :=
            fun idx hidx => hfind idx (mem_clusterIndices.mp hidx).1
          refine ⟨Nat.le_of_eq hid.symm, by rw [hid]; omega,
            ⟨t, List.mem_cons_self t rest, hwcnt⟩, ?_⟩
          rw [hassigns, countPrim_append, countPrim_append, hid, hwcnt]
          have hz1 : countPrim pend.assigns pend.nextTopicId = 0 :=
            countPrim_eq_zero (fun a ha => Nat.ne_of_lt (hA a ha))
          have hzs : countPrim (clusterAssigns db1 prep t pend.nextTopicId)
              pend.nextTopicId =
              (clusterAssigns db1 prep t pend.nextTopicId).length :=
            countPrim_self (fun a ha => clusterAssigns_fields ha)
          have hz2 : countPrim tl1 pend.nextTopicId = 0 :=
            countPrim_eq_zero (fun a ha => by have h2 := htl1b a ha; omega)
          rw [hz1, hzs, hz2, clusterAssigns_length hfind2]
          omega
        · obtain ⟨hb1, hb2, ⟨t', ht', hwc⟩, hcp⟩ := htlT1b T hTm1
          exact ⟨by omega, hb2, ⟨t', List.mem_cons_of_mem t ht', hwc⟩, hcp⟩

/-! ### Trace observers

Predicates over the event trace of one pipeline execution, used to state
the ordering properties of the run-record commit. -/

/-- Scans a trace: `true` exactly when no clustering call occurs strictly
before the first commit of the `running` run record. -/
def markerBeforeClustering : List Ev → Bool
  | [] => true
  | .runRecordCommitted :: _ => true
  | .clusterCall _ :: _ => false
  | _ :: rest => markerBeforeClustering rest

/-- Scans a trace: `true` exactly when no label-generation call occurs
strictly before the first commit of the `running` run record. -/
def markerBeforeLabeling : List Ev → Bool
  | [] => true
  | .runRecordCommitted :: _ => true
  | .labelCall _ :: _ => false
  | _ :: rest => markerBeforeLabeling rest

/-! ### Concrete fixtures for witnesses and counterexamples -/

/-- A configuration with minimum cluster size 2 (the threshold is read
from an environment variable in `config.py`). -/
def cfgEx : Config := ⟨"all-MiniLM-L6-v2", 5, 2⟩

/-- A store holding two unassigned wishes and nothing else. -/
def dbEx2 : DB :=
  ⟨[⟨1, "world peace", none, false⟩, ⟨2, "peace on earth", none, false⟩],
    [], [], [], [], 3, 1, 1⟩

/-- A store holding four unassigned wishes and nothing else. -/
def dbEx4 : DB :=
  ⟨[⟨1, "world peace", none, false⟩, ⟨2, "peace on earth", none, false⟩,
    ⟨3, "get rich", none, false⟩, ⟨4, "win the lottery", none, false⟩],
    [], [], [], [], 5, 1, 1⟩

/-- A store with two unassigned wishes and one `running` run already
recorded. -/
def dbRun : DB :=
  ⟨[⟨1, "world peace", none, false⟩, ⟨2, "peace on earth", none, false⟩],
    [], [], [⟨1, 1, .running, 2, 0, none, ⟨"all-MiniLM-L6-v2", 5, 2⟩⟩], [], 3, 1, 2⟩

/-- A clustering oracle placing every document in cluster 0. -/
def oracleAll0 : List String → ClusterResult := fun docs =>
  ⟨docs.map (fun _ => 0), docs.map (fun _ => fun _ => (9 : Rat) / 10),
    fun _ => ["peace", "world"]⟩

/-- A clustering oracle putting the first two documents in cluster 0 and
the rest in cluster 1. -/
def oracleTwo : List String → ClusterResult := fun docs =>
  ⟨(List.range docs.length).map (fun i => if i < 2 then 0 else 1),
    docs.map (fun _ => fun _ => (4 : Rat) / 5),
    fun t => if t = 0 then ["peace"] else ["money"]⟩

/-- A clustering oracle that, on a four-document corpus, clusters the
first two documents and reports the last two as outliers; on any other
corpus it clusters everything into cluster 0. -/
def oracleOutliers : List String → ClusterResult := fun docs =>
  if docs.length = 4 then
    ⟨[0, 0, -1, -1], docs.map (fun _ => fun _ => (1 : Rat)), fun _ => ["kw"]⟩
  else
    ⟨docs.map (fun _ => 0), docs.map (fun _ => fun _ => (1 : Rat)), fun _ => ["kw"]⟩

/-- A labeling function with a fixed answer. -/
def labelFnEx : List String → List String → String × String :=
  fun _ _ => ("World Peace", "Wishes about world peace")

/-- The committed state right after a manual trigger followed by the
run-record insert of the background pipeline execution it schedules. -/
def c2MidState : DB :=
  match insertRunRecord cfgEx oracleAll0 (trigger_training cfgEx dbEx2).1 with
  | some (db2, _, _) => db2
  | none => dbEx2

/-- The store after a first, completed pipeline run over `dbEx4` that left
two outliers unassigned. -/
def c6AfterFirst : DB :=
  (process_unassigned_wishes cfgEx oracleOutliers labelFnEx none 0 dbEx4).1

/-- The store after rerunning the pipeline on `c6AfterFirst` with no wish
submitted in between. -/
def c6AfterSecond : DB :=
  (process_unassigned_wishes cfgEx oracleOutliers labelFnEx none 1 c6AfterFirst).1

/-! ### C1 — ordering of the run-record commit -/

/-- C1 counterexample: in a concrete full pipeline execution, the
clustering call happens strictly before the `running` run record is
committed, so the committed marker does not precede the long-running
clustering/embedding work as the claim states. -/
theorem C1_counterexample :
    (process_unassigned_wishes cfgEx oracleAll0 labelFnEx none 0 dbEx2).2.1 =
      RunOutcome.completed ∧
    markerBeforeClustering
      (process_unassigned_wishes cfgEx oracleAll0 labelFnEx none 0 dbEx2).2.2 = false :=
  ⟨rfl, rfl⟩

theorem markerBeforeLabeling_clusterCall (d : List String) (l : List Ev) :
    markerBeforeLabeling (.clusterCall d :: l) = markerBeforeLabeling l := rfl

theorem markerBeforeLabeling_marker (l : List Ev) :
    markerBeforeLabeling (.runRecordCommitted :: l) = true := rfl

/-- C1 amended: no label-generation work ever precedes the commit of the
`running` run record, and every non-declined execution's trace starts with
the clustering call followed immediately by that commit — the marker is
committed before the labeling phase but only after the clustering/embedding
call has already run. -/
theorem C1_marker_ordering (cfg : Config) (oracle : List String → ClusterResult)
    (labelFn : List String → List String → String × String) (failAt : Option Nat)
    (now : Nat) (db : DB) :
    markerBeforeLabeling
      (process_unassigned_wishes cfg oracle labelFn failAt now db).2.2 = true ∧
    ((process_unassigned_wishes cfg oracle labelFn failAt now db).2.1 ≠
        RunOutcome.notEnough →
      ∃ rest, (process_unassigned_wishes cfg oracle labelFn failAt now db).2.2 =
        Ev.clusterCall ((eligibleWishes db).map (·.content)) ::
          Ev.runRecordCommitted :: rest) := by
  by_cases h : (eligibleWishes db).length < cfg.minClusterSize
  · rw [process_eq_of_lt cfg oracle labelFn failAt now db h]
    exact ⟨rfl, fun hc => absurd rfl hc⟩
  · cases hr : (processClusters cfg labelFn (dbAfterInsert cfg oracle db)
        (runPrepOf oracle db) failAt 0 (runPrepOf oracle db).uniq
        ⟨[], [], [], (dbAfterInsert cfg oracle db).nextTopicId⟩).2 with
    | none =>
      rw [process_eq_failed cfg oracle labelFn failAt now db h hr]
      constructor
      · simp only [List.cons_append, List.nil_append]
        rw [markerBeforeLabeling_clusterCall, markerBeforeLabeling_marker]
      · intro _
        refine ⟨(processClusters cfg labelFn (dbAfterInsert cfg oracle db)
          (runPrepOf oracle db) failAt 0 (runPrepOf oracle db).uniq
          ⟨[], [], [], (dbAfterInsert cfg oracle db).nextTopicId⟩).1 ++
          [Ev.statusCommitted .failed], ?_⟩
        simp only [List.cons_append, List.nil_append]
    | some pend =>
      rw [process_eq_completed cfg oracle labelFn failAt now db pend h hr]
      constructor
      · simp only [List.cons_append, List.nil_append]
        rw [markerBeforeLabeling_clusterCall, markerBeforeLabeling_marker]
      · intro _
        refine ⟨(processClusters cfg labelFn (dbAfterInsert cfg oracle db)
          (runPrepOf oracle db) failAt 0 (runPrepOf oracle db).uniq
          ⟨[], [], [], (dbAfterInsert cfg oracle db).nextTopicId⟩).1 ++
          [Ev.workCommitted, Ev.statusCommitted .completed], ?_⟩
        simp only [List.cons_append, List.nil_append]

/-- C1 amended, witness: a concrete non-declined execution whose trace
starts with the clustering call and then the marker commit. -/
theorem C1_marker_ordering_witness :
    (process_unassigned_wishes cfgEx oracleAll0 labelFnEx none 0 dbEx2).2.1 ≠
      RunOutcome.notEnough ∧
    ∃ rest, (process_unassigned_wishes cfgEx oracleAll0 labelFnEx none 0 dbEx2).2.2 =
      Ev.clusterCall ((eligibleWishes dbEx2).map (·.content)) ::
        Ev.runRecordCommitted :: rest :=
  ⟨by decide,
    (C1_marker_ordering cfgEx oracleAll0 labelFnEx none 0 dbEx2).2 (by decide)⟩

/-! ### C2 — two `running` rows from a single manual trigger -/

/-- C2: a single manual trigger with enough unassigned wishes succeeds and
then, when the background pipeline it scheduled commits its own run
record, the store durably holds two `ModelUpdate` rows with status
`running` at the same instant. -/
theorem C2_double_running_rows :
    (∃ mu, (trigger_training cfgEx dbEx2).2 = Except.ok mu) ∧
    (c2MidState.modelUpdates.filter
      (fun m => decide (m.status = RunStatus.running))).length = 2 :=
  ⟨⟨_, rfl⟩, rfl⟩

/-! ### C3 — admission check location -/

/-- C3 counterexample: with a `running` run already recorded, a scheduled
pipeline execution does not refuse: it runs to completion, creates a new
`TrainingRun` row (two rows where one existed) and persists a topic,
contradicting the claim that every invocation refuses with zero new rows
and no work. -/
theorem C3_counterexample :
    dbRun.modelUpdates.length = 1 ∧
    (process_unassigned_wishes cfgEx oracleAll0 labelFnEx none 0 dbRun).2.1 =
      RunOutcome.completed ∧
    (process_unassigned_wishes cfgEx oracleAll0 labelFnEx none 0 dbRun).1.modelUpdates.length
      = 2 ∧
    (process_unassigned_wishes cfgEx oracleAll0 labelFnEx none 0 dbRun).1.topics.length = 1 :=
  ⟨rfl, rfl, rfl, rfl⟩

/-- C3 amended: the admission check lives in the manual trigger endpoint
only.  Whenever some run is `running`, `trigger_training` answers the
conflict error and leaves the store unchanged. -/
theorem C3_endpoint_admission (cfg : Config) (db : DB)
    (h : ∃ m ∈ db.modelUpdates, m.status = RunStatus.running) :
    trigger_training cfg db = (db, Except.error TrigError.conflict) := by
  obtain ⟨m, hm, hs⟩ := h
  have hany : db.modelUpdates.any (fun m => decide (m.status = RunStatus.running)) = true :=
    List.any_eq_true.mpr ⟨m, hm, by simp [hs]⟩
  simp [trigger_training, hany]

/-- C3 amended, witness at a concrete store with one `running` run. -/
theorem C3_endpoint_admission_witness :
    (∃ m ∈ dbRun.modelUpdates, m.status = RunStatus.running) ∧
    trigger_training cfgEx dbRun = (dbRun, Except.error TrigError.conflict) :=
  ⟨by decide, C3_endpoint_admission cfgEx dbRun (by decide)⟩

/-! ### C4 — failure atomicity -/

/-- C4: when an exception hits the per-cluster labeling/persistence phase
(at any cluster index the loop reaches) after the run record was
committed, the settled store marks exactly that run `failed` and is
otherwise unchanged: the wishes, topics and assignment tables are exactly
as before the run, and every wish the run processed still has a null
`topic_id`. -/
theorem C4_failure_atomicity (cfg : Config) (oracle : List String → ClusterResult)
    (labelFn : List String → List String → String × String) (now : Nat) (db : DB)
    (k : Nat)
    (hmin : ¬ (eligibleWishes db).length < cfg.minClusterSize)
    (hk : k < (uniqueLabels (oracle ((eligibleWishes db).map (·.content))).labels).length)
    (hids : ∀ m ∈ db.modelUpdates, m.id ≠ db.nextUpdateId) :
    (process_unassigned_wishes cfg oracle labelFn (some k) now db).2.1 =
      RunOutcome.failed ∧
    (process_unassigned_wishes cfg oracle labelFn (some k) now db).1.wishes = db.wishes ∧
    (process_unassigned_wishes cfg oracle labelFn (some k) now db).1.topics = db.topics ∧
    (process_unassigned_wishes cfg oracle labelFn (some k) now db).1.topicWishes =
      db.topicWishes ∧
    (process_unassigned_wishes cfg oracle labelFn (some k) now db).1.modelUpdates =
      db.modelUpdates ++ [{ runRowOf cfg oracle db with status := RunStatus.failed }] ∧
    ∀ w ∈ eligibleWishes db, w.topic_id = none ∧
      w ∈ (process_unassigned_wishes cfg oracle labelFn (some k) now db).1.wishes := by
  have hr : (processClusters cfg labelFn (dbAfterInsert cfg oracle db)
      (runPrepOf oracle db) (some k) 0 (runPrepOf oracle db).uniq
      ⟨[], [], [], (dbAfterInsert cfg oracle db).nextTopicId⟩).2 = none :=
    processClusters_fails cfg labelFn (dbAfterInsert cfg oracle db) (runPrepOf oracle db)
      k (runPrepOf oracle db).uniq 0 _ (Nat.zero_le k) (by simpa using hk)
  rw [process_eq_failed cfg oracle labelFn (some k) now db hmin hr]
  refine ⟨rfl, rfl, rfl, rfl, ?_, ?_⟩
  · exact @markRun_append (dbAfterInsert cfg oracle db) db.modelUpdates
      (runRowOf cfg oracle db) (fun m => { m with status := RunStatus.failed }) rfl hids
  · intro w hw
    obtain ⟨hmem, hnull, _⟩ := mem_eligibleWishes.mp hw
    exact ⟨hnull, hmem⟩

/-- C4 witness at a concrete run (two clusters discovered, exception
injected at the first) with explicit hypotheses. -/
theorem C4_failure_atomicity_witness :
    (¬ (eligibleWishes dbEx4).length < cfgEx.minClusterSize) ∧
    (0 < (uniqueLabels
      (oracleTwo ((eligibleWishes dbEx4).map (·.content))).labels).length) ∧
    (∀ m ∈ dbEx4.modelUpdates, m.id ≠ dbEx4.nextUpdateId) ∧
    (process_unassigned_wishes cfgEx oracleTwo labelFnEx (some 0) 0 dbEx4).2.1 =
      RunOutcome.failed ∧
    (process_unassigned_wishes cfgEx oracleTwo labelFnEx (some 0) 0 dbEx4).1.topicWishes =
      dbEx4.topicWishes :=
  ⟨by decide, by decide, by decide,
    (C4_failure_atomicity cfgEx oracleTwo labelFnEx 0 dbEx4 0
      (by decide) (by decide) (by decide)).1,
    (C4_failure_atomicity cfgEx oracleTwo labelFnEx 0 dbEx4 0
      (by decide) (by decide) (by decide)).2.2.2.1⟩

/-! ### C5 — `topics_created` of a failed run -/

/-- C5 counterexample: a concrete run that discovers two clusters and then
fails settles with `topics_created = 2`, not 0 as the claim states. -/
theorem C5_counterexample :
    (process_unassigned_wishes cfgEx oracleTwo labelFnEx (some 0) 0 dbEx4).2.1 =
      RunOutcome.failed ∧
    (process_unassigned_wishes cfgEx oracleTwo labelFnEx (some 0) 0 dbEx4).1.modelUpdates.map
      (fun m => (m.status, m.topics_created)) = [(RunStatus.failed, 2)] :=
  ⟨rfl, rfl⟩

/-- C5 amended: the pipeline creates its run record with `topics_created`
already equal to the number of discovered clusters (clustering precedes the
record's creation), and no later status transition changes that field — so
the settled row of any run, a failed one included, reports the
discovered-cluster count rather than 0. -/
theorem C5_topics_created_at_creation (cfg : Config)
    (oracle : List String → ClusterResult)
    (labelFn : List String → List String → String × String) (failAt : Option Nat)
    (now : Nat) (db : DB)
    (hmin : ¬ (eligibleWishes db).length < cfg.minClusterSize)
    (hids : ∀ m ∈ db.modelUpdates, m.id ≠ db.nextUpdateId) :
    (runRowOf cfg oracle db).topics_created =
      (uniqueLabels (oracle ((eligibleWishes db).map (·.content))).labels).length ∧
    ∃ mu, (process_unassigned_wishes cfg oracle labelFn failAt now db).1.modelUpdates =
      db.modelUpdates ++ [mu] ∧ mu.id = db.nextUpdateId ∧
      mu.topics_created =
        (uniqueLabels (oracle ((eligibleWishes db).map (·.content))).labels).length := by
  refine ⟨rfl, ?_⟩
  cases hr : (processClusters cfg labelFn (dbAfterInsert cfg oracle db)
      (runPrepOf oracle db) failAt 0 (runPrepOf oracle db).uniq
      ⟨[], [], [], (dbAfterInsert cfg oracle db).nextTopicId⟩).2 with
  | none =>
    rw [process_eq_failed cfg oracle labelFn failAt now db hmin hr]
    exact ⟨_, @markRun_append (dbAfterInsert cfg oracle db) db.modelUpdates
      (runRowOf cfg oracle db) (fun m => { m with status := RunStatus.failed }) rfl hids,
      rfl, rfl⟩
  | some pend =>
    rw [process_eq_completed cfg oracle labelFn failAt now db pend hmin hr]
    exact ⟨_, @markRun_append (commitPending (dbAfterInsert cfg oracle db) pend)
      db.modelUpdates (runRowOf cfg oracle db)
      (fun m => { m with status := RunStatus.completed, completed_at := some now })
      rfl hids, rfl, rfl⟩

/-- C5 amended, witness: the concrete failed run of the counterexample,
with the hypotheses discharged. -/
theorem C5_topics_created_at_creation_witness :
    (¬ (eligibleWishes dbEx4).length < cfgEx.minClusterSize) ∧
    (∀ m ∈ dbEx4.modelUpdates, m.id ≠ dbEx4.nextUpdateId) ∧
    ∃ mu, (process_unassigned_wishes cfgEx oracleTwo labelFnEx (some 0) 0
        dbEx4).1.modelUpdates = dbEx4.modelUpdates ++ [mu] ∧
      mu.id = dbEx4.nextUpdateId ∧
      mu.topics_created =
        (uniqueLabels (oracleTwo ((eligibleWishes dbEx4).map (·.content))).labels).length :=
  ⟨by decide, by decide,
    (C5_topics_created_at_creation cfgEx oracleTwo labelFnEx (some 0) 0 dbEx4
      (by decide) (by decide)).2⟩

/-! ### C6 — rerun after a completed run -/

/-- C6 counterexample: after a completed first run that left two outliers
unassigned (meeting the minimum cluster size of 2), the second run does
not decline: it runs to completion and creates a new Topic row. -/
theorem C6_counterexample :
    (process_unassigned_wishes cfgEx oracleOutliers labelFnEx none 0 dbEx4).2.1 =
      RunOutcome.completed ∧
    (eligibleWishes c6AfterFirst).length = 2 ∧
    c6AfterFirst.topics.length = 1 ∧
    (process_unassigned_wishes cfgEx oracleOutliers labelFnEx none 1 c6AfterFirst).2.1 =
      RunOutcome.completed ∧
    c6AfterSecond.topics.length = 2 :=
  ⟨rfl, rfl, rfl, rfl, rfl⟩

/-- C6 amended: a rerun considers only wishes still unassigned — every
clustering call receives exactly the contents of the wishes with null
`topic_id` (and not deleted), and a wish that already has a topic is never
modified; when fewer unassigned wishes remain than the configured minimum
cluster size the rerun declines with no state change at all.  (When at
least that many outliers remain, the rerun proceeds and may create topics,
as the counterexample shows.) -/
theorem C6_second_run_scope (cfg : Config) (oracle : List String → ClusterResult)
    (labelFn : List String → List String → String × String) (failAt : Option Nat)
    (now : Nat) (db : DB)
    (hnodup : (db.wishes.map (·.id)).Nodup)
    (hlen : (oracle ((eligibleWishes db).map (·.content))).labels.length =
      (eligibleWishes db).length) :
    (∀ d, Ev.clusterCall d ∈
        (process_unassigned_wishes cfg oracle labelFn failAt now db).2.2 →
      d = (eligibleWishes db).map (·.content)) ∧
    (∀ w ∈ db.wishes, w.topic_id ≠ none →
      w ∈ (process_unassigned_wishes cfg oracle labelFn failAt now db).1.wishes) ∧
    ((eligibleWishes db).length < cfg.minClusterSize →
      process_unassigned_wishes cfg oracle labelFn failAt now db =
        (db, RunOutcome.notEnough, [])) := by
  refine ⟨fun d hd => clusterCall_docs cfg oracle labelFn failAt now db d hd, ?_,
    fun h => process_eq_of_lt cfg oracle labelFn failAt now db h⟩
  intro w hw hne
  by_cases hmin : (eligibleWishes db).length < cfg.minClusterSize
  · rw [process_eq_of_lt cfg oracle labelFn failAt now db hmin]
    exact hw
  · cases hr : (processClusters cfg labelFn (dbAfterInsert cfg oracle db)
        (runPrepOf oracle db) failAt 0 (runPrepOf oracle db).uniq
        ⟨[], [], [], (dbAfterInsert cfg oracle db).nextTopicId⟩).2 with
    | none =>
      rw [process_eq_failed cfg oracle labelFn failAt now db hmin hr]
      exact hw
    | some pend =>
      rw [process_eq_completed cfg oracle labelFn failAt now db pend hmin hr]
      have hupd : ∀ p ∈ pend.wishUpd, p.1 ≠ w.id := by
        intro p hp heq
        obtain ⟨idx, hidx, hpe, _⟩ :=
          (pendWrites_ids cfg oracle labelFn failAt db pend hlen hr).1 p hp
        exact eligible_id_ne hnodup hw (List.getElem_mem hidx) hne (hpe ▸ heq)
      have hself : applyWishUpd pend.wishUpd w = w := applyWishUpd_eq_self hupd
      exact hself ▸ List.mem_map_of_mem (applyWishUpd pend.wishUpd) hw

/-- C6 amended, witness: a concrete rerun situation (the store left by a
completed first run) with the hypotheses discharged. -/
theorem C6_second_run_scope_witness :
    ((c6AfterFirst.wishes.map (·.id)).Nodup) ∧
    ((oracleOutliers ((eligibleWishes c6AfterFirst).map (·.content))).labels.length =
      (eligibleWishes c6AfterFirst).length) ∧
    (∀ w ∈ c6AfterFirst.wishes, w.topic_id ≠ none →
      w ∈ (process_unassigned_wishes cfgEx oracleOutliers labelFnEx none 1
        c6AfterFirst).1.wishes) :=
  ⟨by decide, by decide,
    (C6_second_run_scope cfgEx oracleOutliers labelFnEx none 1 c6AfterFirst
      (by decide) (by decide)).2.1⟩

/-! ### C7 — outlier documents are untouched -/

theorem eligible_getElem_id_inj {db : DB} (hnodup : (db.wishes.map (·.id)).Nodup)
    {i j : Nat} (hi : i < (eligibleWishes db).length)
    (hj : j < (eligibleWishes db).length)
    (h : (eligibleWishes db)[i].id = (eligibleWishes db)[j].id) : i = j := by
  have hn := eligible_ids_nodup hnodup
  have hi2 : i < ((eligibleWishes db).map (·.id)).length := by simpa using hi
  have hj2 : j < ((eligibleWishes db).map (·.id)).length := by simpa using hj
  have h2 : ((eligibleWishes db).map (·.id))[i] = ((eligibleWishes db).map (·.id))[j] := by
    simpa using h
  exact hn.getElem_inj_iff.mp h2

/-- The pipeline never makes a label-generation call for the outlier
sentinel -1: only distinct non-outlier labels are iterated. -/
theorem no_outlier_labelCall (cfg : Config) (oracle : List String → ClusterResult)
    (labelFn : List String → List String → String × String) (failAt : Option Nat)
    (now : Nat) (db : DB) :
    Ev.labelCall (-1) ∉
      (process_unassigned_wishes cfg oracle labelFn failAt now db).2.2 := by
  intro hmem
  by_cases hmin : (eligibleWishes db).length < cfg.minClusterSize
  · rw [process_eq_of_lt cfg oracle labelFn failAt now db hmin] at hmem
    simp at hmem
  · cases hr : (processClusters cfg labelFn (dbAfterInsert cfg oracle db)
        (runPrepOf oracle db) failAt 0 (runPrepOf oracle db).uniq
        ⟨[], [], [], (dbAfterInsert cfg oracle db).nextTopicId⟩).2 with
    | none =>
      rw [process_eq_failed cfg oracle labelFn failAt now db hmin hr] at hmem
      simp only [List.cons_append, List.nil_append, List.mem_cons, List.mem_append,
        List.mem_singleton, List.not_mem_nil, or_false] at hmem
      rcases hmem with h | h | h | h
      · exact Ev.noConfusion h
      · exact Ev.noConfusion h
      · obtain ⟨t, ht, he⟩ := processClusters_evs cfg labelFn _ _ failAt _ 0 _ _ h
        have ht1 : t ≠ -1 :=
          (mem_uniqueLabels.mp (by rw [runPrepOf_uniq] at ht; exact ht)).2
        have h2 : (-1 : Int) = t := by injection he
        exact ht1 h2.symm
      · exact Ev.noConfusion h
    | some pend =>
      rw [process_eq_completed cfg oracle labelFn failAt now db pend hmin hr] at hmem
      simp only [List.cons_append, List.nil_append, List.mem_cons, List.mem_append,
        List.mem_singleton, List.not_mem_nil, or_false] at hmem
      rcases hmem with h | h | h | h | h
      · exact Ev.noConfusion h
      · exact Ev.noConfusion h
      · obtain ⟨t, ht, he⟩ := processClusters_evs cfg labelFn _ _ failAt _ 0 _ _ h
        have ht1 : t ≠ -1 :=
          (mem_uniqueLabels.mp (by rw [runPrepOf_uniq] at ht; exact ht)).2
        have h2 : (-1 : Int) = t := by injection he
        exact ht1 h2.symm
      · exact Ev.noConfusion h
      · exact Ev.noConfusion h

/-- C7: a document whose cluster label is the outlier sentinel -1 leaves
its wish untouched in every run: the wish keeps a null `topic_id` and is
still present unchanged, no assignment row for it is added, and the
pipeline never labels the outlier sentinel. -/
theorem C7_outliers_untouched (cfg : Config) (oracle : List String → ClusterResult)
    (labelFn : List String → List String → String × String) (failAt : Option Nat)
    (now : Nat) (db : DB) (i : Nat) (w : Wish)
    (hnodup : (db.wishes.map (·.id)).Nodup)
    (hlen : (oracle ((eligibleWishes db).map (·.content))).labels.length =
      (eligibleWishes db).length)
    (hi : i < (eligibleWishes db).length)
    (hw : (eligibleWishes db)[i] = w)
    (hout : (oracle ((eligibleWishes db).map (·.content))).labels.getD i 0 = -1) :
    w.topic_id = none ∧
    w ∈ (process_unassigned_wishes cfg oracle labelFn failAt now db).1.wishes ∧
    (∀ a ∈ (process_unassigned_wishes cfg oracle labelFn failAt now db).1.topicWishes,
      a.wish_id = w.id → a ∈ db.topicWishes) ∧
    Ev.labelCall (-1) ∉
      (process_unassigned_wishes cfg oracle labelFn failAt now db).2.2 := by
  have hwe : w ∈ eligibleWishes db := hw ▸ List.getElem_mem hi
  have hwnull : w.topic_id = none := (mem_eligibleWishes.mp hwe).2.1
  have hwmem : w ∈ db.wishes := (mem_eligibleWishes.mp hwe).1
  have hidne : ∀ idx, ∀ h2 : idx < (eligibleWishes db).length,
      (oracle ((eligibleWishes db).map (·.content))).labels.getD idx 0 ≠ -1 →
      (eligibleWishes db)[idx].id ≠ w.id := by
    intro idx h2 hno heq
    have hij : idx = i := eligible_getElem_id_inj hnodup h2 hi (by rw [hw]; exact heq)
    exact hno (hij ▸ hout)
  refine ⟨hwnull, ?_, ?_, no_outlier_labelCall cfg oracle labelFn failAt now db⟩
  · by_cases hmin : (eligibleWishes db).length < cfg.minClusterSize
    · rw [process_eq_of_lt cfg oracle labelFn failAt now db hmin]; exact hwmem
    · cases hr : (processClusters cfg labelFn (dbAfterInsert cfg oracle db)
          (runPrepOf oracle db) failAt 0 (runPrepOf oracle db).uniq
          ⟨[], [], [], (dbAfterInsert cfg oracle db).nextTopicId⟩).2 with
      | none =>
        rw [process_eq_failed cfg oracle labelFn failAt now db hmin hr]; exact hwmem
      | some pend =>
        rw [process_eq_completed cfg oracle labelFn failAt now db pend hmin hr]
        have hupd : ∀ p ∈ pend.wishUpd, p.1 ≠ w.id := by
          intro p hp heq
          obtain ⟨idx, h2, hpe, hno⟩ :=
            (pendWrites_ids cfg oracle labelFn failAt db pend hlen hr).1 p hp
          exact hidne idx h2 hno (hpe ▸ heq)
        have hself : applyWishUpd pend.wishUpd w = w := applyWishUpd_eq_self hupd
        exact hself ▸ List.mem_map_of_mem (applyWishUpd pend.wishUpd) hwmem
  · intro a hmem haw
    by_cases hmin : (eligibleWishes db).length < cfg.minClusterSize
    · rw [process_eq_of_lt cfg oracle labelFn failAt now db hmin] at hmem; exact hmem
    · cases hr : (processClusters cfg labelFn (dbAfterInsert cfg oracle db)
          (runPrepOf oracle db) failAt 0 (runPrepOf oracle db).uniq
          ⟨[], [], [], (dbAfterInsert cfg oracle db).nextTopicId⟩).2 with
      | none =>
        rw [process_eq_failed cfg oracle labelFn failAt now db hmin hr] at hmem
        exact hmem
      | some pend =>
        rw [process_eq_completed cfg oracle labelFn failAt now db pend hmin hr] at hmem
        have hmem2 : a ∈ db.topicWishes ++ pend.assigns := hmem
        rcases List.mem_append.mp hmem2 with h | h
        · exact h
        · obtain ⟨idx, h2, hpe, hno⟩ :=
            (pendWrites_ids cfg oracle labelFn failAt db pend hlen hr).2 a h
          exact absurd (hpe ▸ haw) (hidne idx h2 hno)

/-- C7 witness: the concrete outlier run — wish 3 (document index 2,
labelled -1) is untouched by the completed run. -/
theorem C7_outliers_untouched_witness :
    ((dbEx4.wishes.map (·.id)).Nodup) ∧
    ((oracleOutliers ((eligibleWishes dbEx4).map (·.content))).labels.getD 2 0 = -1) ∧
    ((⟨3, "get rich", none, false⟩ : Wish).topic_id = none ∧
      (⟨3, "get rich", none, false⟩ : Wish) ∈
        (process_unassigned_wishes cfgEx oracleOutliers labelFnEx none 0 dbEx4).1.wishes ∧
      Ev.labelCall (-1) ∉
        (process_unassigned_wishes cfgEx oracleOutliers labelFnEx none 0 dbEx4).2.2) :=
  ⟨by decide, by decide,
    (C7_outliers_untouched cfgEx oracleOutliers labelFnEx none 0 dbEx4 2
      ⟨3, "get rich", none, false⟩ (by decide) (by decide) (by decide) (by decide)
      (by decide)).1,
    (C7_outliers_untouched cfgEx oracleOutliers labelFnEx none 0 dbEx4 2
      ⟨3, "get rich", none, false⟩ (by decide) (by decide) (by decide) (by decide)
      (by decide)).2.1,
    (C7_outliers_untouched cfgEx oracleOutliers labelFnEx none 0 dbEx4 2
      ⟨3, "get rich", none, false⟩ (by decide) (by decide) (by decide) (by decide)
      (by decide)).2.2.2⟩

/-! ### C8 — wish_count consistency -/

/-- C8: immediately after a completed run, every newly created topic's
`wish_count` equals the number of primary assignment rows referencing it
in the store, and both equal the size of the cluster the engine placed
those documents in. -/
theorem C8_wish_count_consistent (cfg : Config) (oracle : List String → ClusterResult)
    (labelFn : List String → List String → String × String) (now : Nat) (db : DB)
    (hmin : ¬ (eligibleWishes db).length < cfg.minClusterSize)
    (hlen : (oracle ((eligibleWishes db).map (·.content))).labels.length =
      (eligibleWishes db).length)
    (hbound : ∀ a ∈ db.topicWishes, a.topic_id < db.nextTopicId) :
    (process_unassigned_wishes cfg oracle labelFn none now db).2.1 =
      RunOutcome.completed ∧
    ∀ T ∈ (process_unassigned_wishes cfg oracle labelFn none now db).1.topics,
      T ∉ db.topics →
      T.wish_count =
        countPrim
          (process_unassigned_wishes cfg oracle labelFn none now db).1.topicWishes T.id ∧
      ∃ t ∈ uniqueLabels (oracle ((eligibleWishes db).map (·.content))).labels,
        T.wish_count = (clusterIndices
          (oracle ((eligibleWishes db).map (·.content))).labels t).length := by
  have hfind : ∀ idx, idx < (runPrepOf oracle db).labels.length →
      ((dbAfterInsert cfg oracle db).wishes.find?
        (fun w => w.id == (runPrepOf oracle db).wish_ids.getD idx 0)).isSome := by
    intro idx hidx
    rw [runPrepOf_labels, hlen] at hidx
    have hmem : (eligibleWishes db)[idx] ∈ eligibleWishes db := List.getElem_mem hidx
    have hmem2 : (eligibleWishes db)[idx] ∈ db.wishes := (mem_eligibleWishes.mp hmem).1
    refine List.find?_isSome.mpr ⟨(eligibleWishes db)[idx], hmem2, ?_⟩
    rw [runPrepOf_wish_ids, getD_map_id hidx]
    simp
  obtain ⟨pend', hr2, hle, ⟨tl, htl, htlb⟩, ⟨tlT, htlT, htlTb⟩⟩ :=
    processClusters_complete_spec cfg labelFn (dbAfterInsert cfg oracle db)
      (runPrepOf oracle db) hfind (runPrepOf oracle db).uniq 0
      ⟨[], [], [], (dbAfterInsert cfg oracle db).nextTopicId⟩
      (fun a ha => absurd ha (List.not_mem_nil a))
      (fun T hT => absurd hT (List.not_mem_nil T))
  rw [process_eq_completed cfg oracle labelFn none now db pend' hmin hr2]
  refine ⟨rfl, ?_⟩
  intro T hT hTnot
  have hT2 : T ∈ db.topics ++ pend'.topics := hT
  rcases List.mem_append.mp hT2 with h | h
  · exact absurd h hTnot
  · have hTin : T ∈ tlT := by rw [htlT] at h; exact h
    obtain ⟨hb1, hb2, ⟨t, ht, hwc⟩, hcp⟩ := htlTb T hTin
    have hb1a : db.nextTopicId ≤ T.id := hb1
    constructor
    · have hz : countPrim db.topicWishes T.id = 0 :=
        countPrim_eq_zero (fun a ha => by have h3 := hbound a ha; omega)
      have h4 : countPrim (db.topicWishes ++ pend'.assigns) T.id = T.wish_count := by
        rw [countPrim_append, hz, hcp]; omega
      exact h4.symm
    · refine ⟨t, ?_, hwc⟩
      rw [runPrepOf_uniq] at ht
      exact ht

/-- C8 witness: the concrete completed two-cluster run, hypotheses
discharged. -/
theorem C8_wish_count_consistent_witness :
    (¬ (eligibleWishes dbEx4).length < cfgEx.minClusterSize) ∧
    ((oracleTwo ((eligibleWishes dbEx4).map (·.content))).labels.length =
      (eligibleWishes dbEx4).length) ∧
    (∀ a ∈ dbEx4.topicWishes, a.topic_id < dbEx4.nextTopicId) ∧
    ((process_unassigned_wishes cfgEx oracleTwo labelFnEx none 0 dbEx4).2.1 =
      RunOutcome.completed ∧
    ∀ T ∈ (process_unassigned_wishes cfgEx oracleTwo labelFnEx none 0 dbEx4).1.topics,
      T ∉ dbEx4.topics →
      T.wish_count = countPrim
        (process_unassigned_wishes cfgEx oracleTwo labelFnEx none 0
          dbEx4).1.topicWishes T.id ∧
      ∃ t ∈ uniqueLabels (oracleTwo ((eligibleWishes dbEx4).map (·.content))).labels,
        T.wish_count = (clusterIndices
          (oracleTwo ((eligibleWishes dbEx4).map (·.content))).labels t).length) :=
  ⟨by decide, by decide, by decide,
    C8_wish_count_consistent cfgEx oracleTwo labelFnEx 0 dbEx4
      (by decide) (by decide) (by decide)⟩

/-! ### C9 — moderation rejection path -/

/-- C9: the moderation gate fails closed (an API error is reported as
unsafe), and for every submission judged unsafe the store gains exactly
one `RejectedWish` row carrying the rejection reason, the wishes table is
untouched, and the caller is answered with the reason. -/
theorem C9_moderation_reject (modRes : ModResult) (mm content : String) (db : DB)
    (h : (should_reject_wish modRes).1 = false) :
    (∀ msg, (should_reject_wish (ModResult.apiError msg)).1 = false) ∧
    ∃ r, (should_reject_wish modRes).2 = some r ∧
      create_wish mm modRes content db =
        ({ db with rejectedWishes := db.rejectedWishes ++ [⟨content, r, mm⟩] },
          Except.error ("Wish rejected: " ++ r)) := by
  refine ⟨fun _ => rfl, ?_⟩
  cases modRes with
  | ok => simp [should_reject_wish, moderate_content] at h
  | flagged cats => exact ⟨_, rfl, rfl⟩
  | apiError m => exact ⟨_, rfl, rfl⟩

/-- C9 witness: a concrete rejected submission (moderation service down). -/
theorem C9_moderation_reject_witness :
    (should_reject_wish (ModResult.apiError "timeout")).1 = false ∧
    ((∀ msg, (should_reject_wish (ModResult.apiError msg)).1 = false) ∧
      ∃ r, (should_reject_wish (ModResult.apiError "timeout")).2 = some r ∧
        create_wish "text-moderation-latest" (ModResult.apiError "timeout") "a wish" dbEx2 =
          ({ dbEx2 with rejectedWishes := dbEx2.rejectedWishes ++ [⟨"a wish", r, "text-moderation-latest"⟩] },
            Except.error ("Wish rejected: " ++ r))) :=
  ⟨rfl, C9_moderation_reject (ModResult.apiError "timeout") "text-moderation-latest"
    "a wish" dbEx2 rfl⟩

/-! ### C10 — soft delete frame -/

/-- C10: soft-deleting an existing wish flips only its `is_deleted` flag:
every wish keeps its id, content and `topic_id`, the assignment table and
the topics table (hence every denormalized `wish_count`) are untouched,
and the targeted wish ends up marked deleted. -/
theorem C10_soft_delete_frame (wid : Nat) (db : DB)
    (h : ∃ w ∈ db.wishes, w.id = wid) :
    (delete_wish wid db).2 = true ∧
    (delete_wish wid db).1.topics = db.topics ∧
    (delete_wish wid db).1.topicWishes = db.topicWishes ∧
    (delete_wish wid db).1.wishes.map (fun w => (w.id, w.content, w.topic_id)) =
      db.wishes.map (fun w => (w.id, w.content, w.topic_id)) ∧
    ∃ w' ∈ (delete_wish wid db).1.wishes, w'.id = wid ∧ w'.is_deleted = true := by
  obtain ⟨w, hw, hid⟩ := h
  have hfind : (db.wishes.find? (fun w => w.id == wid)).isSome :=
    List.find?_isSome.mpr ⟨w, hw, by simp [hid]⟩
  obtain ⟨w0, hw0⟩ : ∃ w0, db.wishes.find? (fun w => w.id == wid) = some w0 :=
    Option.isSome_iff_exists.mp hfind
  have hw0id : w0.id = wid := by
    have := List.find?_some hw0
    simpa using this
  have hw0mem : w0 ∈ db.wishes := List.mem_of_find?_eq_some hw0
  refine ⟨?_, ?_, ?_, ?_, ?_⟩
  · simp [delete_wish, hw0]
  · simp [delete_wish, hw0]
  · simp [delete_wish, hw0]
  · simp only [delete_wish, hw0, List.map_map]
    refine List.map_congr_left (fun a _ => ?_)
    by_cases hc : a.id = wid <;> simp [hc]
  · refine ⟨{ w0 with is_deleted := true }, ?_, hw0id, rfl⟩
    simp only [delete_wish, hw0]
    have : (fun w => if w.id == wid then { w with is_deleted := true } else w) w0 =
        { w0 with is_deleted := true } := by simp [hw0id]
    exact this ▸ List.mem_map_of_mem _ hw0mem

/-- C10 witness at a concrete store and wish. -/
theorem C10_soft_delete_frame_witness :
    (∃ w ∈ dbEx2.wishes, w.id = 1) ∧
    ((delete_wish 1 dbEx2).2 = true ∧
      (delete_wish 1 dbEx2).1.topics = dbEx2.topics ∧
      (delete_wish 1 dbEx2).1.topicWishes = dbEx2.topicWishes ∧
      (delete_wish 1 dbEx2).1.wishes.map (fun w => (w.id, w.content, w.topic_id)) =
        dbEx2.wishes.map (fun w => (w.id, w.content, w.topic_id)) ∧
      ∃ w' ∈ (delete_wish 1 dbEx2).1.wishes, w'.id = 1 ∧ w'.is_deleted = true) :=
  ⟨by decide, C10_soft_delete_frame 1 dbEx2 (by decide)⟩

end WishingWell
